import Mathlib

/-!
Verification of the incarceration-period preparation engine
(`recidiviz/calculator/pipeline/utils/incarceration_period_utils.py`).

Dates are modelled as integers (day ordinals): the source uses Python
`datetime.date` only through equality, the linear order, and day-count
subtraction `(a - b).days`, all of which the ordinal embedding preserves.
Machine integers do not occur (Python ints are unbounded).

Stateful Python code (list building, in-place field assignment) is embedded
as explicit functional state passing; the in-place mutation of caller-owned
objects performed by `validate_release_data` is additionally modelled by a
per-object post-state function so that mutation of inputs is observable.
-/

abbrev Date := Int

inductive AdmissionReason where
  | ADMITTED_IN_ERROR
  | EXTERNAL_UNKNOWN
  | INTERNAL_UNKNOWN
  | NEW_ADMISSION
  | PAROLE_REVOCATION
  | PROBATION_REVOCATION
  | DUAL_REVOCATION
  | RETURN_FROM_ESCAPE
  | RETURN_FROM_SUPERVISION
  | TEMPORARY_CUSTODY
  | TRANSFER
deriving DecidableEq, Repr

inductive ReleaseReason where
  | COMMUTED
  | CONDITIONAL_RELEASE
  | COURT_ORDER
  | DEATH
  | ESCAPE
  | EXTERNAL_UNKNOWN
  | INTERNAL_UNKNOWN
  | RELEASED_IN_ERROR
  | SENTENCE_SERVED
  | TRANSFER
deriving DecidableEq, Repr

inductive StateIncarcerationPeriodStatus where
  | EXTERNAL_UNKNOWN
  | IN_CUSTODY
  | NOT_IN_CUSTODY
  | PRESENT_WITHOUT_INFO
deriving DecidableEq, Repr

inductive StateIncarcerationType where
  | COUNTY_JAIL
  | EXTERNAL_UNKNOWN
  | STATE_PRISON
deriving DecidableEq, Repr

/-- Incarceration period record (`StateIncarcerationPeriod`), restricted to the
fields read or written by the preparation engine. -/
structure StateIncarcerationPeriod where
  incarceration_period_id : Option Int := none
  external_id : Option String := none
  status : StateIncarcerationPeriodStatus := StateIncarcerationPeriodStatus.PRESENT_WITHOUT_INFO
  incarceration_type : Option StateIncarcerationType := none
  admission_date : Option Date := none
  admission_reason : Option AdmissionReason := none
  admission_reason_raw_text : Option String := none
  release_date : Option Date := none
  release_reason : Option ReleaseReason := none
  release_reason_raw_text : Option String := none
  facility : Option String := none
  housing_unit : Option String := none
  facility_security_level : Option String := none
  facility_security_level_raw_text : Option String := none
  projected_release_reason : Option ReleaseReason := none
  projected_release_reason_raw_text : Option String := none
  state_code : Option String := none
deriving DecidableEq, Repr

abbrev IP := StateIncarcerationPeriod

/-- Modelled from the spec: `is_placeholder` (from
`recidiviz.persistence.entity.entity_utils`, not under `src/`): periods
lacking the stable external identity are placeholders. -/
def is_placeholder (ip : IP) : Bool := ip.external_id.isNone

/-- `drop_placeholder_periods`: removes placeholder periods. -/
def drop_placeholder_periods (incarceration_periods : List IP) : List IP :=
  incarceration_periods.filter (fun ip => !(is_placeholder ip))

/-- `validate_admission_data`: drops placeholders and periods lacking an
admission date or admission reason. -/
def validate_admission_data (incarceration_periods : List IP) : List IP :=
  incarceration_periods.filter
    (fun ip => !(is_placeholder ip) && ip.admission_date.isSome && ip.admission_reason.isSome)

/-- Per-element body of the `validate_release_data` loop.  `none` means the
period is dropped (`continue`); otherwise the (possibly mutated) period is
appended.  `today` is the processing day (`date.today()`). -/
def validate_release_data_step (today : Date) (ip : IP) : Option IP :=
  if ip.release_date = none ∧ ip.status ≠ StateIncarcerationPeriodStatus.IN_CUSTODY then
    none
  else
    let ip1 :=
      if ip.release_reason = none ∧ ip.status ≠ StateIncarcerationPeriodStatus.IN_CUSTODY then
        { ip with release_reason := some ReleaseReason.INTERNAL_UNKNOWN }
      else ip
    if ip1.release_date = none ∧ (ip1.release_reason ≠ none ∨ ip1.release_reason_raw_text ≠ none) then
      none
    else
      match ip1.release_date with
      | some rd =>
          if today < rd then
            some { ip1 with release_date := none, release_reason := none,
                            status := StateIncarcerationPeriodStatus.IN_CUSTODY }
          else some ip1
      | none => some ip1

/-- `validate_release_data`: drops periods with unusable release data,
defaults a missing release reason on closed periods, and clears release data
lying after the processing day. -/
def validate_release_data (today : Date) (incarceration_periods : List IP) : List IP :=
  incarceration_periods.filterMap (validate_release_data_step today)

/-- Post-state of a caller-supplied period object after `validate_release_data`
returns.  The source assigns fields on the objects of the input list
(`incarceration_period.release_reason = ...` and the future-release clearing),
also when the object is subsequently dropped from the returned list; this
function records the final field values of each input object. -/
def validate_release_data_mut (today : Date) (ip : IP) : IP :=
  if ip.release_date = none ∧ ip.status ≠ StateIncarcerationPeriodStatus.IN_CUSTODY then
    ip
  else
    let ip1 :=
      if ip.release_reason = none ∧ ip.status ≠ StateIncarcerationPeriodStatus.IN_CUSTODY then
        { ip with release_reason := some ReleaseReason.INTERNAL_UNKNOWN }
      else ip
    if ip1.release_date = none ∧ (ip1.release_reason ≠ none ∨ ip1.release_reason_raw_text ≠ none) then
      ip1
    else
      match ip1.release_date with
      | some rd =>
          if today < rd then
            { ip1 with release_date := none, release_reason := none,
                       status := StateIncarcerationPeriodStatus.IN_CUSTODY }
          else ip1
      | none => ip1

/-- `combine_incarceration_periods`: deep copy of `s` with the listed fields
overwritten from `e` (and the admission fields, when
`overwrite_admission_reason` is set). -/
def combine_incarceration_periods (s e : IP) (overwrite_admission_reason : Bool) : IP :=
  let c :=
    if overwrite_admission_reason then
      { s with admission_reason := e.admission_reason,
               admission_reason_raw_text := e.admission_reason_raw_text }
    else s
  { c with status := e.status, release_date := e.release_date,
           facility := e.facility, housing_unit := e.housing_unit,
           facility_security_level := e.facility_security_level,
           facility_security_level_raw_text := e.facility_security_level_raw_text,
           projected_release_reason := e.projected_release_reason,
           projected_release_reason_raw_text := e.projected_release_reason_raw_text,
           release_reason := e.release_reason,
           release_reason_raw_text := e.release_reason_raw_text }

/-- Loop body of `collapse_incarceration_period_transfers`: the state is the
accumulated list (`new_incarceration_periods`) and the `open_transfer` flag. -/
def citp_step (st : List IP × Bool) (ip : IP) : List IP × Bool :=
  let acc :=
    if st.2 ∧ ip.admission_reason = some AdmissionReason.TRANSFER then
      st.1.dropLast ++ [combine_incarceration_periods (st.1.getLastD ip) ip false]
    else st.1 ++ [ip]
  (acc, decide (ip.release_reason = some ReleaseReason.TRANSFER))

/-- `collapse_incarceration_period_transfers`: merges adjacent periods
connected by a transfer release followed by a transfer admission. -/
def collapse_incarceration_period_transfers (sorted_incarceration_periods : List IP) : List IP :=
  (sorted_incarceration_periods.foldl citp_step ([], false)).1

/-- Structural form of the transfer-collapse loop: `cur` is the currently
retained last period, periods are merged into it while the transfer chain
stays open. -/
def citp_go (cur : IP) : List IP → List IP
  | [] => [cur]
  | q :: rest =>
      if cur.release_reason = some ReleaseReason.TRANSFER
          ∧ q.admission_reason = some AdmissionReason.TRANSFER then
        citp_go (combine_incarceration_periods cur q false) rest
      else cur :: citp_go q rest

/-- Merge condition of `collapse_temporary_custody_and_revocation_periods`:
back-to-back dates, temporary-custody admission, then a revocation admission. -/
def tc_rev_merge_cond (prev ip : IP) : Prop :=
  prev.release_date = ip.admission_date
    ∧ prev.admission_reason = some AdmissionReason.TEMPORARY_CUSTODY
    ∧ (ip.admission_reason = some AdmissionReason.DUAL_REVOCATION
        ∨ ip.admission_reason = some AdmissionReason.PAROLE_REVOCATION
        ∨ ip.admission_reason = some AdmissionReason.PROBATION_REVOCATION)

instance (prev ip : IP) : Decidable (tc_rev_merge_cond prev ip) := by
  unfold tc_rev_merge_cond; infer_instance

/-- Loop of `collapse_temporary_custody_and_revocation_periods`; the first
argument is the `previous_period` variable (`none` initially and directly
after a merge). -/
def ctcr_loop : Option IP → List IP → List IP
  | none, [] => []
  | some prev, [] => [prev]
  | none, ip :: rest => ctcr_loop (some ip) rest
  | some prev, ip :: rest =>
      if tc_rev_merge_cond prev ip then
        combine_incarceration_periods prev ip true :: ctcr_loop none rest
      else prev :: ctcr_loop (some ip) rest

/-- `collapse_temporary_custody_and_revocation_periods`. -/
def collapse_temporary_custody_and_revocation_periods (sorted_incarceration_periods : List IP) : List IP :=
  ctcr_loop none sorted_incarceration_periods

/-- `drop_temporary_custody_periods`. -/
def drop_temporary_custody_periods (incarceration_periods : List IP) : List IP :=
  incarceration_periods.filter
    (fun ip => decide (ip.admission_reason ≠ some AdmissionReason.TEMPORARY_CUSTODY))

/-- `_drop_non_prison_periods`. -/
def _drop_non_prison_periods (incarceration_periods : List IP) : List IP :=
  incarceration_periods.filter
    (fun ip => decide (ip.incarceration_type = some StateIncarcerationType.STATE_PRISON))

/-- Modelled from the spec: `drop_periods_not_under_state_custodial_authority`
resolves the two per-jurisdiction policy predicates
(`temporary_custody_periods_under_state_authority`,
`non_prison_periods_under_state_authority`, from
`state_calculation_config_manager`, not under `src/`; both are pure functions
of the batch's jurisdiction code).  The two resolved booleans are taken as
parameters. -/
def drop_periods_not_under_state_custodial_authority
    (temporary_custody_under_authority non_prison_under_authority : Bool)
    (incarceration_periods : List IP) : List IP :=
  let l1 :=
    if !temporary_custody_under_authority then
      drop_temporary_custody_periods incarceration_periods
    else incarceration_periods
  if !non_prison_under_authority then _drop_non_prison_periods l1 else l1

/-- Tie-break of the chronological comparator: alphabetic comparison of the
external identities.  The source raises when either identity is missing; such
branches are unreachable on the valid domain and are given the junk value 0. -/
def _sort_by_external_id (ip_a ip_b : IP) : Int :=
  match ip_a.external_id, ip_b.external_id with
  | some x, some y => if x < y then -1 else 1
  | _, _ => 0

/-- Comparator branch for two periods that both carry release dates. -/
def _sort_by_nonnull_release_dates (ip_a ip_b : IP) : Int :=
  match ip_a.release_date, ip_b.release_date with
  | some ra, some rb => if ra ≠ rb then ra - rb else _sort_by_external_id ip_a ip_b
  | _, _ => 0

/-- Comparator branch on custody status (statuses other than in-custody are
normalized to not-in-custody; in-custody orders last). -/
def _sort_by_custody_status (ip_a ip_b : IP) : Int :=
  let na := if ip_a.status = StateIncarcerationPeriodStatus.IN_CUSTODY
            then StateIncarcerationPeriodStatus.IN_CUSTODY
            else StateIncarcerationPeriodStatus.NOT_IN_CUSTODY
  let nb := if ip_b.status = StateIncarcerationPeriodStatus.IN_CUSTODY
            then StateIncarcerationPeriodStatus.IN_CUSTODY
            else StateIncarcerationPeriodStatus.NOT_IN_CUSTODY
  if na = nb then _sort_by_external_id ip_a ip_b
  else if na = StateIncarcerationPeriodStatus.IN_CUSTODY then 1
  else if nb = StateIncarcerationPeriodStatus.IN_CUSTODY then -1
  else 0

/-- Comparator branch for equal admission dates.  `ValueError` branches of the
source return the junk value 0 (unreachable on the valid domain). -/
def _sort_equal_admission_date (ip_a ip_b : IP) : Int :=
  if ip_a.admission_date ≠ ip_b.admission_date then 0
  else if ip_a.release_date.isSome ∧ ip_b.release_date.isSome then
    _sort_by_nonnull_release_dates ip_a ip_b
  else if ip_a.admission_date = none ∨ ip_b.admission_date = none then 0
  else if ip_a.release_date = none ∧ ip_b.release_date = none then
    _sort_by_custody_status ip_a ip_b
  else
    match ip_a.release_date with
    | some ra =>
        match ip_a.admission_date with
        | some aa => if ra - aa ≠ 0 then 1 else -1
        | none => 0
    | none =>
        match ip_b.release_date with
        | some rb =>
            match ip_b.admission_date with
            | some ab => if rb - ab ≠ 0 then -1 else 1
            | none => 0
        | none => 0

/-- The chronological comparator (`_sort_function` inside
`_sort_ips_by_set_dates_and_statuses`): negative means `ip_a` sorts first. -/
def _sort_function (ip_a ip_b : IP) : Int :=
  if ip_a.admission_date = ip_b.admission_date then _sort_equal_admission_date ip_a ip_b
  else
    let date_a := if ip_a.admission_date.isSome then ip_a.admission_date else ip_a.release_date
    let date_b := if ip_b.admission_date.isSome then ip_b.admission_date else ip_b.release_date
    match date_a, date_b with
    | some x, some y =>
        if x = y then
          if ip_a.release_date.isSome ∧ ip_b.release_date.isSome then
            _sort_by_external_id ip_a ip_b
          else if ip_a.admission_date.isSome then -1 else 1
        else x - y
    | _, _ => 0

/-- Sort relation induced by the comparator under a stable comparison sort:
an earlier element `a` stays before a later element `b` unless the comparator
orders `b` strictly first. -/
def _sort_le (a b : IP) : Prop := 0 ≤ _sort_function b a

instance : DecidableRel _sort_le :=
  fun a b => inferInstanceAs (Decidable (0 ≤ _sort_function b a))

/-- `_sort_ips_by_set_dates_and_statuses`: the comparator sort (CPython's
stable sort, realized as a stable insertion sort). -/
def _sort_ips_by_set_dates_and_statuses (incarceration_periods : List IP) : List IP :=
  List.insertionSort _sort_le incarceration_periods

/-- Mutation pass of `_infer_missing_dates_and_statuses` over the sorted list:
`prevNew` is the already-mutated preceding element (the source reads the
mutated predecessor and the not-yet-mutated successor). -/
def _infer_loop (prevNew : Option IP) : List IP → List IP
  | [] => []
  | ip :: rest =>
      let ip1 :=
        if ip.release_date = none then
          match rest with
          | [] =>
              if ip.status ≠ StateIncarcerationPeriodStatus.IN_CUSTODY then
                { ip with release_date := ip.admission_date,
                          release_reason := some ReleaseReason.INTERNAL_UNKNOWN }
              else ip
          | next_ip :: _ =>
              let ipa := { ip with release_date :=
                if next_ip.admission_date.isSome then next_ip.admission_date
                else next_ip.release_date }
              let ipb :=
                if ip.release_reason = none then
                  if next_ip.admission_reason = some AdmissionReason.TRANSFER then
                    { ipa with release_reason := some ReleaseReason.TRANSFER }
                  else
                    { ipa with release_reason := some ReleaseReason.INTERNAL_UNKNOWN }
                else ipa
              { ipb with status := StateIncarcerationPeriodStatus.NOT_IN_CUSTODY }
        else ip
      let ip2 :=
        if ip1.admission_date = none then
          match prevNew with
          | none =>
              { ip1 with admission_date := ip1.release_date,
                         admission_reason := some AdmissionReason.INTERNAL_UNKNOWN }
          | some previous_ip =>
              let ipa := { ip1 with admission_date :=
                if previous_ip.release_date.isSome then previous_ip.release_date
                else ip1.admission_date }
              if ip1.admission_reason = none then
                if previous_ip.release_reason = some ReleaseReason.TRANSFER then
                  { ipa with admission_reason := some AdmissionReason.TRANSFER }
                else
                  { ipa with admission_reason := some AdmissionReason.INTERNAL_UNKNOWN }
              else ipa
        else ip1
      ip2 :: _infer_loop (some ip2) rest

/-- `_infer_missing_dates_and_statuses`: comparator sort, then neighbour-based
inference of missing dates, reasons and statuses. -/
def _infer_missing_dates_and_statuses (incarceration_periods : List IP) : List IP :=
  _infer_loop none (_sort_ips_by_set_dates_and_statuses incarceration_periods)

/-- `_filter_and_update_incarceration_periods_for_calculations` (with the two
jurisdiction policy booleans and the processing day as parameters). -/
def _filter_and_update_incarceration_periods_for_calculations
    (today : Date) (temporary_custody_under_authority non_prison_under_authority : Bool)
    (incarceration_periods : List IP) : List IP :=
  if incarceration_periods.isEmpty then []
  else
    validate_release_data today
      (validate_admission_data
        (drop_periods_not_under_state_custodial_authority
          temporary_custody_under_authority non_prison_under_authority
          (_infer_missing_dates_and_statuses
            (drop_placeholder_periods incarceration_periods))))

/-- `_collapse_incarceration_periods_for_calculations`. -/
def _collapse_incarceration_periods_for_calculations
    (sorted_incarceration_periods : List IP)
    (collapse_temporary_custody_periods_with_revocation collapse_transfers : Bool) : List IP :=
  let collapsed :=
    if collapse_transfers then
      collapse_incarceration_period_transfers sorted_incarceration_periods
    else sorted_incarceration_periods
  if collapse_temporary_custody_periods_with_revocation then
    collapse_temporary_custody_and_revocation_periods collapsed
  else collapsed

/-- Sort key relation of the first output sort pass
(`key=lambda b: (b.release_date is None, b.release_date)`): set release dates
ascending, periods without a release date at the end. -/
def release_none_last_le : Option Date → Option Date → Prop
  | some x, some y => x ≤ y
  | some _, none => True
  | none, some _ => False
  | none, none => True

instance : ∀ x y : Option Date, Decidable (release_none_last_le x y)
  | some x, some y => inferInstanceAs (Decidable (x ≤ y))
  | some _, none => inferInstanceAs (Decidable True)
  | none, some _ => inferInstanceAs (Decidable False)
  | none, none => inferInstanceAs (Decidable True)

def release_le (a b : IP) : Prop := release_none_last_le a.release_date b.release_date

instance : DecidableRel release_le :=
  fun a b => inferInstanceAs (Decidable (release_none_last_le a.release_date b.release_date))

/-- Sort key relation of the second output sort pass
(`key=lambda b: b.admission_date`); all admission dates are set at that point,
the `none` cases are unreachable (the source would raise comparing `None`). -/
def adm_none_first_le : Option Date → Option Date → Prop
  | some x, some y => x ≤ y
  | some _, none => False
  | none, _ => True

instance : ∀ x y : Option Date, Decidable (adm_none_first_le x y)
  | some x, some y => inferInstanceAs (Decidable (x ≤ y))
  | some _, none => inferInstanceAs (Decidable False)
  | none, _ => inferInstanceAs (Decidable True)

def admission_le (a b : IP) : Prop := adm_none_first_le a.admission_date b.admission_date

instance : DecidableRel admission_le :=
  fun a b => inferInstanceAs (Decidable (adm_none_first_le a.admission_date b.admission_date))

/-- `prepare_incarceration_periods_for_calculations`: validate and update,
sort by release date then (stably) by admission date, then collapse. -/
def prepare_incarceration_periods_for_calculations
    (today : Date) (temporary_custody_under_authority non_prison_under_authority : Bool)
    (collapse_temporary_custody_periods_with_revocation collapse_transfers : Bool)
    (incarceration_periods : List IP) : List IP :=
  let updated_periods :=
    _filter_and_update_incarceration_periods_for_calculations
      today temporary_custody_under_authority non_prison_under_authority incarceration_periods
  let s1 := List.insertionSort release_le updated_periods
  let s2 := List.insertionSort admission_le s1
  _collapse_incarceration_periods_for_calculations s2
    collapse_temporary_custody_periods_with_revocation collapse_transfers

/-- Modelled from the spec: the stage order listed in the system overview
(Validator with its three sub-steps, then Authority Filter, then
Chronological Normalizer, then the admission-date sort and the Period
Collapser), used to compare against the order the code actually executes. -/
def prepare_spec_stage_order
    (today : Date) (temporary_custody_under_authority non_prison_under_authority : Bool)
    (collapse_temporary_custody_periods_with_revocation collapse_transfers : Bool)
    (incarceration_periods : List IP) : List IP :=
  let validated :=
    validate_release_data today
      (validate_admission_data (drop_placeholder_periods incarceration_periods))
  let filtered :=
    drop_periods_not_under_state_custodial_authority
      temporary_custody_under_authority non_prison_under_authority validated
  let normalized := _infer_missing_dates_and_statuses filtered
  let sorted2 := List.insertionSort admission_le normalized
  _collapse_incarceration_periods_for_calculations sorted2
    collapse_temporary_custody_periods_with_revocation collapse_transfers

/-- Overlap of two optional date intervals: both fully dated and properly
intersecting (touching at a boundary is not an overlap). -/
def optIntervalsOverlap : Option Date → Option Date → Option Date → Option Date → Prop
  | some ap, some rp, some aq, some rq => ap < rq ∧ aq < rp
  | _, _, _, _ => False

instance : ∀ a b c d : Option Date, Decidable (optIntervalsOverlap a b c d)
  | some _, some _, some _, some _ => inferInstanceAs (Decidable (_ ∧ _))
  | none, _, _, _ => inferInstanceAs (Decidable False)
  | some _, none, _, _ => inferInstanceAs (Decidable False)
  | some _, some _, none, _ => inferInstanceAs (Decidable False)
  | some _, some _, some _, none => inferInstanceAs (Decidable False)

/-- Overlap of the date intervals of two periods. -/
def dateIntervalsOverlap (p q : IP) : Prop :=
  optIntervalsOverlap p.admission_date p.release_date q.admission_date q.release_date

instance (p q : IP) : Decidable (dateIntervalsOverlap p q) :=
  inferInstanceAs (Decidable (optIntervalsOverlap _ _ _ _))

example : drop_placeholder_periods [] = [] := rfl
example : collapse_incarceration_period_transfers [] = [] := rfl

/-! Calendar model for the monthly stay deriver.  The event deriver
(`incarceration/identifier.py`) is not part of the sources; it is modelled
from the spec below. -/

/-- Calendar date (year, month 1..12, day 1..31). -/
structure CalDate where
  year : Nat
  month : Nat
  day : Nat
deriving DecidableEq, Repr

/-- Index of a calendar month on the month time line. -/
def CalDate.monthIdx (d : CalDate) : Nat := d.year * 12 + (d.month - 1)

def isLeapYear (y : Nat) : Bool := (y % 4 = 0 && !(y % 100 = 0)) || y % 400 = 0

def daysInMonth (y m : Nat) : Nat :=
  if m = 2 then (if isLeapYear y then 29 else 28)
  else if m = 4 ∨ m = 6 ∨ m = 9 ∨ m = 11 then 30
  else 31

/-- Last day of the calendar month with month index `i`. -/
def lastDayOfMonthIdx (i : Nat) : CalDate :=
  { year := i / 12, month := i % 12 + 1, day := daysInMonth (i / 12) (i % 12 + 1) }

/-- Modelled from the spec: `find_end_of_month_state_prison_stays`
(`recidiviz.calculator.pipeline.incarceration.identifier`, not under `src/`).
For each whole calendar month from the admission month through the month
before release (or through the current month when no release date exists),
one stay event is emitted, anchored at the last day of that month; a period
admitted and released within the same month still yields one event; periods
without an admission date, and periods whose custody type is not state
prison, yield no stay events.  The returned list holds the anchor date of
each emitted event. -/
def find_end_of_month_state_prison_stays
    (incarceration_type : Option StateIncarcerationType)
    (admission_date release_date : Option CalDate) (today : CalDate) : List CalDate :=
  if incarceration_type ≠ some StateIncarcerationType.STATE_PRISON then []
  else
    match admission_date with
    | none => []
    | some ad =>
        let startIdx := ad.monthIdx
        let endIdx :=
          match release_date with
          | some rd => max startIdx (rd.monthIdx - 1)
          | none => today.monthIdx
        (List.range (endIdx + 1 - startIdx)).map (fun k => lastDayOfMonthIdx (startIdx + k))

/-! Field behaviour of the merge constructor. -/

theorem combine_admission_date (s e : IP) (b : Bool) :
    (combine_incarceration_periods s e b).admission_date = s.admission_date := by
  cases b <;> rfl

theorem combine_release_date (s e : IP) (b : Bool) :
    (combine_incarceration_periods s e b).release_date = e.release_date := by
  cases b <;> rfl

theorem combine_release_reason (s e : IP) (b : Bool) :
    (combine_incarceration_periods s e b).release_reason = e.release_reason := by
  cases b <;> rfl

theorem combine_admission_reason_of_not_overwrite (s e : IP) :
    (combine_incarceration_periods s e false).admission_reason = s.admission_reason := rfl

/-! Equivalence of the transfer-collapse loop with its structural form. -/

theorem citp_foldl_go (rest : List IP) : ∀ (acc : List IP) (cur : IP),
    (rest.foldl citp_step
        (acc ++ [cur], decide (cur.release_reason = some ReleaseReason.TRANSFER))).1
      = acc ++ citp_go cur rest := by
  induction rest with
  | nil => intro acc cur; simp [citp_go]
  | cons q rest ih =>
      intro acc cur
      rw [List.foldl_cons]
      by_cases h : cur.release_reason = some ReleaseReason.TRANSFER
          ∧ q.admission_reason = some AdmissionReason.TRANSFER
      · have hstep : citp_step
            (acc ++ [cur], decide (cur.release_reason = some ReleaseReason.TRANSFER)) q
            = (acc ++ [combine_incarceration_periods cur q false],
               decide (q.release_reason = some ReleaseReason.TRANSFER)) := by
          simp [citp_step, h.1, h.2, List.dropLast_concat, List.getLastD_concat]
        rw [hstep]
        have hflag : q.release_reason
            = (combine_incarceration_periods cur q false).release_reason :=
          (combine_release_reason cur q false).symm
        rw [hflag, ih acc (combine_incarceration_periods cur q false)]
        rw [citp_go, if_pos h]
      · have hstep : citp_step
            (acc ++ [cur], decide (cur.release_reason = some ReleaseReason.TRANSFER)) q
            = ((acc ++ [cur]) ++ [q],
               decide (q.release_reason = some ReleaseReason.TRANSFER)) := by
          by_cases h1 : cur.release_reason = some ReleaseReason.TRANSFER
          · have h2 : ¬ q.admission_reason = some AdmissionReason.TRANSFER :=
              fun h2 => h ⟨h1, h2⟩
            simp [citp_step, h1, h2]
          · simp [citp_step, h1]
        rw [hstep, ih (acc ++ [cur]) q, citp_go, if_neg h]
        simp

theorem collapse_transfers_cons (cur : IP) (rest : List IP) :
    collapse_incarceration_period_transfers (cur :: rest) = citp_go cur rest := by
  unfold collapse_incarceration_period_transfers
  rw [List.foldl_cons]
  have hstep : citp_step ([], false) cur
      = ([] ++ [cur], decide (cur.release_reason = some ReleaseReason.TRANSFER)) := by
    simp [citp_step]
  rw [hstep, citp_foldl_go rest [] cur]
  simp

/-! Transfer chains collapse to a single combined period. -/

theorem citp_go_transfer_chain : ∀ (rest : List IP) (cur : IP),
    cur.release_reason = some ReleaseReason.TRANSFER →
    (∀ q ∈ rest, q.release_reason = some ReleaseReason.TRANSFER) →
    (∀ q ∈ rest, q.admission_reason = some AdmissionReason.TRANSFER) →
    citp_go cur rest
      = [rest.foldl (fun s e => combine_incarceration_periods s e false) cur] := by
  intro rest
  induction rest with
  | nil => intro cur _ _ _; rfl
  | cons q rest ih =>
      intro cur hcur hrel hadm
      rw [citp_go, if_pos ⟨hcur, hadm q (List.mem_cons_self q rest)⟩, List.foldl_cons]
      exact ih (combine_incarceration_periods cur q false)
        (by rw [combine_release_reason]; exact hrel q (List.mem_cons_self q rest))
        (fun r hr => hrel r (List.mem_cons_of_mem q hr))
        (fun r hr => hadm r (List.mem_cons_of_mem q hr))

theorem foldl_combine_admission_date : ∀ (rest : List IP) (cur : IP),
    ((rest.foldl (fun s e => combine_incarceration_periods s e false) cur)).admission_date
      = cur.admission_date := by
  intro rest
  induction rest with
  | nil => intro cur; rfl
  | cons q rest ih =>
      intro cur
      rw [List.foldl_cons, ih, combine_admission_date]

theorem foldl_combine_admission_reason : ∀ (rest : List IP) (cur : IP),
    ((rest.foldl (fun s e => combine_incarceration_periods s e false) cur)).admission_reason
      = cur.admission_reason := by
  intro rest
  induction rest with
  | nil => intro cur; rfl
  | cons q rest ih =>
      intro cur
      rw [List.foldl_cons, ih, combine_admission_reason_of_not_overwrite]

theorem foldl_combine_release_date : ∀ (rest : List IP) (cur : IP),
    ((rest.foldl (fun s e => combine_incarceration_periods s e false) cur)).release_date
      = (rest.getLastD cur).release_date := by
  intro rest
  induction rest with
  | nil => intro cur; rfl
  | cons q rest ih =>
      intro cur
      rw [List.foldl_cons, ih, List.getLastD_cons]
      cases rest with
      | nil => simp [List.getLastD_nil, combine_release_date]
      | cons r rest => rw [List.getLastD_cons, List.getLastD_cons]

theorem foldl_combine_release_reason : ∀ (rest : List IP) (cur : IP),
    ((rest.foldl (fun s e => combine_incarceration_periods s e false) cur)).release_reason
      = (rest.getLastD cur).release_reason := by
  intro rest
  induction rest with
  | nil => intro cur; rfl
  | cons q rest ih =>
      intro cur
      rw [List.foldl_cons, ih, List.getLastD_cons]
      cases rest with
      | nil => simp [List.getLastD_nil, combine_release_reason]
      | cons r rest => rw [List.getLastD_cons, List.getLastD_cons]

/-- Validity domain of the chronological comparator: at least one of the two
dates is set and the external identity is present. -/
def ValidPeriod (ip : IP) : Prop :=
  (ip.admission_date ≠ none ∨ ip.release_date ≠ none) ∧ ip.external_id ≠ none

instance (ip : IP) : Decidable (ValidPeriod ip) := by
  unfold ValidPeriod; infer_instance

/-- C2: an admission-date-sorted transfer chain (every period released by
transfer, every later period admitted by transfer) collapses to exactly one
period carrying the first period's admission date and reason and the last
period's release date and reason. -/
theorem transfer_chain_collapses_to_single_period (p : IP) (rest : List IP)
    (_hsorted : List.Sorted admission_le (p :: rest))
    (hrel : ∀ q ∈ p :: rest, q.release_reason = some ReleaseReason.TRANSFER)
    (hadm : ∀ q ∈ rest, q.admission_reason = some AdmissionReason.TRANSFER) :
    collapse_incarceration_period_transfers (p :: rest)
        = [rest.foldl (fun s e => combine_incarceration_periods s e false) p]
      ∧ (rest.foldl (fun s e => combine_incarceration_periods s e false) p).admission_date
          = p.admission_date
      ∧ (rest.foldl (fun s e => combine_incarceration_periods s e false) p).admission_reason
          = p.admission_reason
      ∧ (rest.foldl (fun s e => combine_incarceration_periods s e false) p).release_date
          = (rest.getLastD p).release_date
      ∧ (rest.foldl (fun s e => combine_incarceration_periods s e false) p).release_reason
          = (rest.getLastD p).release_reason := by
  refine ⟨?_, foldl_combine_admission_date rest p, foldl_combine_admission_reason rest p,
    foldl_combine_release_date rest p, foldl_combine_release_reason rest p⟩
  rw [collapse_transfers_cons]
  exact citp_go_transfer_chain rest p (hrel p (List.mem_cons_self p rest))
    (fun q hq => hrel q (List.mem_cons_of_mem p hq)) hadm

/-- Witness for the transfer-chain collapse at a concrete two-period chain. -/
theorem transfer_chain_collapse_witness :
    (let w1 : IP := { external_id := some ("IP1"), admission_date := some 0,
                      admission_reason := some AdmissionReason.NEW_ADMISSION,
                      release_date := some 10,
                      release_reason := some ReleaseReason.TRANSFER,
                      status := StateIncarcerationPeriodStatus.NOT_IN_CUSTODY };
     let w2 : IP := { external_id := some ("IP2"), admission_date := some 10,
                      admission_reason := some AdmissionReason.TRANSFER,
                      release_date := some 20,
                      release_reason := some ReleaseReason.TRANSFER,
                      status := StateIncarcerationPeriodStatus.NOT_IN_CUSTODY };
     List.Sorted admission_le [w1, w2]
     ∧ collapse_incarceration_period_transfers [w1, w2]
         = [[w2].foldl (fun s e => combine_incarceration_periods s e false) w1]) := by
  exact ⟨by decide,
    (transfer_chain_collapses_to_single_period _ _ (by decide) (by decide) (by decide)).1⟩

/-- C4: a consecutive pair collapses exactly under the temporary-custody /
revocation condition (equal boundary dates included), and the merged period
carries the second period's admission reason and raw text. -/
theorem temp_custody_revocation_pair_collapse (p q : IP) :
    collapse_temporary_custody_and_revocation_periods [p, q]
        = (if tc_rev_merge_cond p q then [combine_incarceration_periods p q true] else [p, q])
      ∧ (combine_incarceration_periods p q true).admission_reason = q.admission_reason
      ∧ (combine_incarceration_periods p q true).admission_reason_raw_text
          = q.admission_reason_raw_text := by
  refine ⟨?_, rfl, rfl⟩
  by_cases h : tc_rev_merge_cond p q
  · simp [collapse_temporary_custody_and_revocation_periods, ctcr_loop, h]
  · simp [collapse_temporary_custody_and_revocation_periods, ctcr_loop, h]

/-- Release validation drops a period whose release date is missing while a
release reason or its raw text is present and the status is in custody. -/
theorem release_step_ambiguous_drop (today : Date) (ip : IP)
    (hst : ip.status = StateIncarcerationPeriodStatus.IN_CUSTODY)
    (hrd : ip.release_date = none)
    (hsig : ip.release_reason ≠ none ∨ ip.release_reason_raw_text ≠ none) :
    validate_release_data_step today ip = none := by
  rcases hsig with h | h
  · simp [validate_release_data_step, hst, hrd, h]
  · simp [validate_release_data_step, hst, hrd, h]

/-- Release validation clears a release date lying after the processing day
(along with the release reason) and resets the status, keeping the period. -/
theorem release_step_future_clears (today : Date) (ip : IP) (d : Date)
    (hrd : ip.release_date = some d) (hfut : today < d) :
    validate_release_data_step today ip
      = some { ip with release_date := none, release_reason := none,
                       status := StateIncarcerationPeriodStatus.IN_CUSTODY } := by
  by_cases h1 : ip.release_reason = none
      ∧ ip.status ≠ StateIncarcerationPeriodStatus.IN_CUSTODY
  · simp [validate_release_data_step, hrd, h1, hfut]
  · simp [validate_release_data_step, hrd, h1, hfut]

/-- C10: a period that is in custody but carries a release reason or raw text
without a release date is dropped by the release validation. -/
theorem in_custody_ambiguous_release_signal_dropped (today : Date) (ip : IP)
    (hst : ip.status = StateIncarcerationPeriodStatus.IN_CUSTODY)
    (hrd : ip.release_date = none)
    (hsig : ip.release_reason ≠ none ∨ ip.release_reason_raw_text ≠ none) :
    validate_release_data_step today ip = none
      ∧ validate_release_data today [ip] = [] := by
  have hstep := release_step_ambiguous_drop today ip hst hrd hsig
  exact ⟨hstep, by simp [validate_release_data, hstep]⟩

/-- Witness for the in-custody ambiguous-release-signal drop. -/
theorem in_custody_ambiguous_release_signal_witness :
    (let p : IP := { external_id := some ("A"), admission_date := some 3,
                     admission_reason := some AdmissionReason.NEW_ADMISSION,
                     release_reason_raw_text := some ("99999999"),
                     status := StateIncarcerationPeriodStatus.IN_CUSTODY };
     p.status = StateIncarcerationPeriodStatus.IN_CUSTODY ∧ p.release_date = none
       ∧ validate_release_data 7 [p] = []) := by
  exact ⟨rfl, rfl,
    (in_custody_ambiguous_release_signal_dropped 7 _ (by decide) (by decide)
      (Or.inr (by decide))).2⟩

/-- C8: a release date lying strictly after the processing day is cleared
together with the release reason, the status is reset to in-custody, and the
period is retained in the output. -/
theorem future_release_date_cleared_and_period_retained
    (today : Date) (l : List IP) (ip : IP) (d : Date)
    (hmem : ip ∈ l) (hrd : ip.release_date = some d) (hfut : today < d) :
    validate_release_data_step today ip
        = some { ip with release_date := none, release_reason := none,
                         status := StateIncarcerationPeriodStatus.IN_CUSTODY }
      ∧ ({ ip with release_date := none, release_reason := none,
                   status := StateIncarcerationPeriodStatus.IN_CUSTODY } : IP)
          ∈ validate_release_data today l := by
  have hstep := release_step_future_clears today ip d hrd hfut
  exact ⟨hstep, List.mem_filterMap.mpr ⟨ip, hmem, hstep⟩⟩

/-- Witness for the future-release clearing at a concrete period. -/
theorem future_release_cleared_witness :
    (let p : IP := { external_id := some ("A"), admission_date := some 10,
                     admission_reason := some AdmissionReason.NEW_ADMISSION,
                     release_date := some 100,
                     release_reason := some ReleaseReason.SENTENCE_SERVED,
                     status := StateIncarcerationPeriodStatus.NOT_IN_CUSTODY };
     p.release_date = some 100 ∧ (50 : Date) < 100
       ∧ ({ p with release_date := none, release_reason := none,
                    status := StateIncarcerationPeriodStatus.IN_CUSTODY } : IP)
           ∈ validate_release_data 50 [p]) := by
  exact ⟨rfl, by decide,
    (future_release_date_cleared_and_period_retained 50 _ _ 100
      (List.mem_singleton.mpr rfl) rfl (by decide)).2⟩

/-- C7 (amended): the release validation mutates caller-owned objects in
place; a retained period with a past release date, a missing release reason
and a status other than in-custody has its release reason assigned on the
caller's object, and the returned list holds that same (mutated) object. -/
theorem validate_release_data_mutates_caller_objects
    (today : Date) (ip : IP) (d : Date)
    (hrd : ip.release_date = some d) (hpast : d ≤ today)
    (hst : ip.status ≠ StateIncarcerationPeriodStatus.IN_CUSTODY)
    (hrr : ip.release_reason = none) :
    validate_release_data_mut today ip ≠ ip
      ∧ (validate_release_data_mut today ip).release_reason
          = some ReleaseReason.INTERNAL_UNKNOWN
      ∧ validate_release_data today [ip] = [validate_release_data_mut today ip] := by
  have hnlt : ¬ today < d := not_lt.mpr hpast
  have hmut : validate_release_data_mut today ip
      = { ip with release_reason := some ReleaseReason.INTERNAL_UNKNOWN } := by
    simp [validate_release_data_mut, hrd, hst, hrr, hnlt]
  refine ⟨?_, by rw [hmut], ?_⟩
  · rw [hmut]
    intro h
    have hproj := congrArg StateIncarcerationPeriod.release_reason h
    simp [hrr] at hproj
  · have hstep : validate_release_data_step today ip
        = some { ip with release_reason := some ReleaseReason.INTERNAL_UNKNOWN } := by
      simp [validate_release_data_step, hrd, hst, hrr, hnlt]
    simp [validate_release_data, hstep, hmut]

/-- Witness for the in-place mutation behaviour at a concrete period. -/
theorem validate_release_data_mutation_witness :
    (let p : IP := { external_id := some ("A"), admission_date := some 0,
                     admission_reason := some AdmissionReason.NEW_ADMISSION,
                     release_date := some 5,
                     status := StateIncarcerationPeriodStatus.NOT_IN_CUSTODY,
                     incarceration_type := some StateIncarcerationType.STATE_PRISON };
     p.release_date = some 5 ∧ (5 : Date) ≤ 50 ∧ p.release_reason = none
       ∧ validate_release_data_mut 50 p ≠ p
       ∧ validate_release_data 50 [p] = [validate_release_data_mut 50 p]) := by
  refine ⟨rfl, by decide, rfl, ?_, ?_⟩
  · exact (validate_release_data_mutates_caller_objects 50 _ 5 rfl (by decide)
      (by decide) rfl).1
  · exact (validate_release_data_mutates_caller_objects 50 _ 5 rfl (by decide)
      (by decide) rfl).2.2

/-- Counterexample to C7 as stated: a caller-supplied period whose final field
values after `validate_release_data` returns differ from its initial ones
(the missing release reason is assigned on the caller's object), while the
full preparation pipeline returns that mutated object. -/
theorem caller_object_mutation_counterexample :
    (let p : IP := { external_id := some ("A"), admission_date := some 0,
                     admission_reason := some AdmissionReason.NEW_ADMISSION,
                     release_date := some 5,
                     status := StateIncarcerationPeriodStatus.NOT_IN_CUSTODY,
                     incarceration_type := some StateIncarcerationType.STATE_PRISON };
     validate_release_data_mut 50 p ≠ p
       ∧ validate_release_data 50 [p] = [validate_release_data_mut 50 p]
       ∧ prepare_incarceration_periods_for_calculations 50 true true false true [p]
           = [validate_release_data_mut 50 p]) := by decide

/-- Counterexample to C6 as stated: rerunning the pipeline on its own output
changes it — the first run clears a future release date but keeps the raw
release text, and the second run then drops the period entirely. -/
theorem pipeline_idempotence_counterexample :
    (let p : IP := { external_id := some ("B"), admission_date := some 10,
                     admission_reason := some AdmissionReason.NEW_ADMISSION,
                     release_date := some 100,
                     release_reason := some ReleaseReason.SENTENCE_SERVED,
                     release_reason_raw_text := some ("RELEASED"),
                     status := StateIncarcerationPeriodStatus.NOT_IN_CUSTODY,
                     incarceration_type := some StateIncarcerationType.STATE_PRISON };
     prepare_incarceration_periods_for_calculations 50 true true false true
         (prepare_incarceration_periods_for_calculations 50 true true false true [p])
       ≠ prepare_incarceration_periods_for_calculations 50 true true false true [p]) := by
  decide

/-- Counterexample to C5 as stated: two overlapping non-transfer periods pass
through the full pipeline (transfer collapsing enabled) unmerged, so the
output contains two periods whose date intervals overlap. -/
theorem pipeline_output_overlap_counterexample :
    (let p1 : IP := { external_id := some ("A"), admission_date := some 0,
                      admission_reason := some AdmissionReason.NEW_ADMISSION,
                      release_date := some 20,
                      release_reason := some ReleaseReason.SENTENCE_SERVED,
                      status := StateIncarcerationPeriodStatus.NOT_IN_CUSTODY,
                      incarceration_type := some StateIncarcerationType.STATE_PRISON };
     let p2 : IP := { external_id := some ("B"), admission_date := some 10,
                      admission_reason := some AdmissionReason.NEW_ADMISSION,
                      release_date := some 30,
                      release_reason := some ReleaseReason.SENTENCE_SERVED,
                      status := StateIncarcerationPeriodStatus.NOT_IN_CUSTODY,
                      incarceration_type := some StateIncarcerationType.STATE_PRISON };
     prepare_incarceration_periods_for_calculations 50 true true false true [p1, p2]
         = [p1, p2]
       ∧ dateIntervalsOverlap p1 p2) := by decide

/-- The pipeline composed stage by stage, in the order the code executes. -/
theorem prepare_stage_composition
    (today : Date) (ta na ct tr : Bool) (l : List IP) :
    prepare_incarceration_periods_for_calculations today ta na ct tr l
      = _collapse_incarceration_periods_for_calculations
          (List.insertionSort admission_le (List.insertionSort release_le
            (validate_release_data today
              (validate_admission_data
                (drop_periods_not_under_state_custodial_authority ta na
                  (_infer_missing_dates_and_statuses
                    (drop_placeholder_periods l))))))) ct tr := by
  cases l with
  | nil => cases ta <;> cases na <;> rfl
  | cons p l => rfl

/-- C3 (amended): the order the code actually executes — placeholder drop,
then date/status inference (with its comparator sort), then the authority
filter, then admission validation, then release validation, then the two
output sort passes, then the collapsers. -/
theorem pipeline_actual_stage_order
    (today : Date) (ta na ct tr : Bool) (l : List IP) :
    prepare_incarceration_periods_for_calculations today ta na ct tr l
      = _collapse_incarceration_periods_for_calculations
          (List.insertionSort admission_le (List.insertionSort release_le
            (validate_release_data today
              (validate_admission_data
                (drop_periods_not_under_state_custodial_authority ta na
                  (_infer_missing_dates_and_statuses
                    (drop_placeholder_periods l))))))) ct tr :=
  prepare_stage_composition today ta na ct tr l

/-- Counterexample to C3 as stated: on a period with a release date but no
admission date the code (inference before validation) and the spec's listed
stage order (validation before inference) give different results. -/
theorem pipeline_stage_order_differs_from_spec_counterexample :
    (let p : IP := { external_id := some ("A"), release_date := some 5,
                     release_reason := some ReleaseReason.SENTENCE_SERVED,
                     status := StateIncarcerationPeriodStatus.NOT_IN_CUSTODY,
                     incarceration_type := some StateIncarcerationType.STATE_PRISON };
     prepare_incarceration_periods_for_calculations 50 true true false true [p]
       ≠ prepare_spec_stage_order 50 true true false true [p]) := by decide

/-- Concrete periods exhibiting a comparator cycle: a zero-length stay, a
release-only period on the same day, and an open period admitted that day. -/
def cycle_x : IP :=
  { external_id := some ("B"), admission_date := some 0, release_date := some 0,
    status := StateIncarcerationPeriodStatus.NOT_IN_CUSTODY }

def cycle_y : IP :=
  { external_id := some ("A"), release_date := some 0,
    status := StateIncarcerationPeriodStatus.NOT_IN_CUSTODY }

def cycle_z : IP :=
  { external_id := some ("C"), admission_date := some 0,
    status := StateIncarcerationPeriodStatus.NOT_IN_CUSTODY }

/-- Counterexample to C1 as stated: three pairwise distinct valid periods on
which the chronological comparator is cyclic (hence not transitive and not a
strict total order). -/
theorem comparator_transitivity_cycle_counterexample :
    ValidPeriod cycle_x ∧ ValidPeriod cycle_y ∧ ValidPeriod cycle_z
      ∧ cycle_x.external_id ≠ cycle_y.external_id
      ∧ cycle_y.external_id ≠ cycle_z.external_id
      ∧ cycle_x.external_id ≠ cycle_z.external_id
      ∧ _sort_function cycle_x cycle_z < 0 ∧ _sort_function cycle_z cycle_y < 0
      ∧ _sort_function cycle_y cycle_x < 0 := by
  refine ⟨by decide, by decide, by decide, by decide, by decide, by decide,
    by decide, by decide, ?_⟩
  have hAB : ("A" : String) < ("B" : String) :=
    String.lt_iff_toList_lt.mpr (by decide)
  have hred : _sort_function cycle_y cycle_x
      = if ("A" : String) < ("B" : String) then -1 else 1 := rfl
  rw [hred, if_pos hAB]
  decide

set_option maxRecDepth 8000 in
/-- C9: monthly stay events of the deriver — 131 events for a state-prison
period admitted 2000-01-20 and released 2010-12-01; exactly one event for any
period admitted and released within one calendar month; no events without an
admission date. -/
theorem monthly_stay_event_counts :
    (find_end_of_month_state_prison_stays (some StateIncarcerationType.STATE_PRISON)
        (some { year := 2000, month := 1, day := 20 })
        (some { year := 2010, month := 12, day := 1 })
        { year := 2019, month := 11, day := 1 }).length = 131
      ∧ (∀ (ad rd t : CalDate), ad.year = rd.year → ad.month = rd.month →
          (find_end_of_month_state_prison_stays (some StateIncarcerationType.STATE_PRISON)
              (some ad) (some rd) t).length = 1)
      ∧ (∀ (rd : Option CalDate) (t : CalDate),
          find_end_of_month_state_prison_stays (some StateIncarcerationType.STATE_PRISON)
            none rd t = []) := by
  refine ⟨by decide, ?_, fun rd t => rfl⟩
  intro ad rd t hy hm
  have hidx : rd.monthIdx = ad.monthIdx := by
    unfold CalDate.monthIdx
    rw [hy, hm]
  simp only [find_end_of_month_state_prison_stays]
  rw [if_neg (fun h => h rfl), hidx]
  simp only [List.length_map, List.length_range]
  omega

/-- Witness for the same-month case of the monthly stay deriver. -/
theorem monthly_stay_event_counts_witness :
    (let ad : CalDate := { year := 2020, month := 5, day := 3 };
     let rd : CalDate := { year := 2020, month := 5, day := 30 };
     ad.year = rd.year ∧ ad.month = rd.month
       ∧ (find_end_of_month_state_prison_stays (some StateIncarcerationType.STATE_PRISON)
           (some ad) (some rd) { year := 2020, month := 6, day := 1 }).length = 1) :=
  ⟨rfl, rfl, monthly_stay_event_counts.2.1 _ _ _ rfl rfl⟩

/-! Singleton-list behaviour of the pipeline stages, used to track one period
through two full pipeline runs. -/

theorem drop_placeholder_singleton (p : IP) (hext : p.external_id ≠ none) :
    drop_placeholder_periods [p] = [p] := by
  simp [drop_placeholder_periods, is_placeholder, Option.isNone_iff_eq_none,
    Option.isSome_iff_ne_none, hext]

theorem infer_dated_singleton (p : IP) (hrd : p.release_date ≠ none)
    (had : p.admission_date ≠ none) :
    _infer_missing_dates_and_statuses [p] = [p] := by
  have hsort : _sort_ips_by_set_dates_and_statuses [p] = [p] := rfl
  unfold _infer_missing_dates_and_statuses
  rw [hsort]
  unfold _infer_loop
  simp [hrd, had, _infer_loop]

theorem infer_open_in_custody_singleton (p : IP) (hrd : p.release_date = none)
    (hst : p.status = StateIncarcerationPeriodStatus.IN_CUSTODY)
    (had : p.admission_date ≠ none) :
    _infer_missing_dates_and_statuses [p] = [p] := by
  have hsort : _sort_ips_by_set_dates_and_statuses [p] = [p] := rfl
  unfold _infer_missing_dates_and_statuses
  rw [hsort]
  unfold _infer_loop
  simp [hrd, had, hst, _infer_loop]

theorem authority_keeps_singleton (ta na : Bool) (p : IP)
    (hnt : p.admission_reason ≠ some AdmissionReason.TEMPORARY_CUSTODY)
    (hty : p.incarceration_type = some StateIncarcerationType.STATE_PRISON) :
    drop_periods_not_under_state_custodial_authority ta na [p] = [p] := by
  cases ta <;> cases na <;>
    simp [drop_periods_not_under_state_custodial_authority,
      drop_temporary_custody_periods, _drop_non_prison_periods, hnt, hty]

theorem validate_admission_singleton (p : IP) (hext : p.external_id ≠ none)
    (had : p.admission_date ≠ none) (hre : p.admission_reason ≠ none) :
    validate_admission_data [p] = [p] := by
  simp [validate_admission_data, is_placeholder, Option.isNone_iff_eq_none, hext,
    Option.isSome_iff_ne_none, had, hre]

theorem collapse_calcs_singleton (x : IP) (ct tr : Bool) :
    _collapse_incarceration_periods_for_calculations [x] ct tr = [x] := by
  cases ct <;> cases tr <;> rfl

theorem collapse_calcs_nil (ct tr : Bool) :
    _collapse_incarceration_periods_for_calculations [] ct tr = [] := by
  cases ct <;> cases tr <;> rfl

/-- Clearing of an erroneous future release: release date and reason are
nulled and the status reset, while the raw release text is left in place. -/
def cleared_release (p : IP) : IP :=
  { p with release_date := none, release_reason := none,
           status := StateIncarcerationPeriodStatus.IN_CUSTODY }

/-- C6 (amended): the pipeline is not idempotent.  A period whose release date
lies after the processing day survives the first run with the release date and
reason cleared but the raw release text kept; the second run's release
validation then drops it, so rerunning the pipeline on its own output changes
the result (here shown on a single-period list, for every flag setting). -/
theorem pipeline_second_run_drops_cleared_future_release
    (today : Date) (ta na ct tr : Bool) (p : IP) (d : Date)
    (hext : p.external_id ≠ none)
    (had : p.admission_date ≠ none)
    (hre : p.admission_reason ≠ none)
    (hnt : p.admission_reason ≠ some AdmissionReason.TEMPORARY_CUSTODY)
    (hty : p.incarceration_type = some StateIncarcerationType.STATE_PRISON)
    (hrd : p.release_date = some d) (hfut : today < d)
    (hraw : p.release_reason_raw_text ≠ none) :
    prepare_incarceration_periods_for_calculations today ta na ct tr [p]
        = [cleared_release p]
      ∧ prepare_incarceration_periods_for_calculations today ta na ct tr
          (prepare_incarceration_periods_for_calculations today ta na ct tr [p]) = [] := by
  have h1 : prepare_incarceration_periods_for_calculations today ta na ct tr [p]
      = [cleared_release p] := by
    rw [prepare_stage_composition]
    rw [drop_placeholder_singleton p hext,
        infer_dated_singleton p (by rw [hrd]; exact fun h => Option.noConfusion h) had,
        authority_keeps_singleton ta na p hnt hty,
        validate_admission_singleton p hext had hre]
    have hv : validate_release_data today [p] = [cleared_release p] := by
      simp [validate_release_data, release_step_future_clears today p d hrd hfut,
        cleared_release]
    rw [hv]
    exact collapse_calcs_singleton _ ct tr
  have hqext : (cleared_release p).external_id ≠ none := hext
  have hqad : (cleared_release p).admission_date ≠ none := had
  have hqre : (cleared_release p).admission_reason ≠ none := hre
  have hqnt : (cleared_release p).admission_reason
      ≠ some AdmissionReason.TEMPORARY_CUSTODY := hnt
  have hqty : (cleared_release p).incarceration_type
      = some StateIncarcerationType.STATE_PRISON := hty
  have hqraw : (cleared_release p).release_reason_raw_text ≠ none := hraw
  refine ⟨h1, ?_⟩
  rw [h1]
  rw [prepare_stage_composition]
  rw [drop_placeholder_singleton _ hqext,
      infer_open_in_custody_singleton _ rfl rfl hqad,
      authority_keeps_singleton ta na _ hqnt hqty,
      validate_admission_singleton _ hqext hqad hqre]
  have hv2 : validate_release_data today [cleared_release p] = [] := by
    simp [validate_release_data,
      release_step_ambiguous_drop today (cleared_release p) rfl rfl (Or.inr hqraw)]
  rw [hv2]
  exact collapse_calcs_nil ct tr

/-- Witness for the non-idempotence theorem at a concrete period. -/
theorem pipeline_second_run_drops_witness :
    (let p : IP := { external_id := some ("B"), admission_date := some 10,
                     admission_reason := some AdmissionReason.NEW_ADMISSION,
                     release_date := some 100,
                     release_reason := some ReleaseReason.SENTENCE_SERVED,
                     release_reason_raw_text := some ("RELEASED"),
                     status := StateIncarcerationPeriodStatus.NOT_IN_CUSTODY,
                     incarceration_type := some StateIncarcerationType.STATE_PRISON };
     p.release_date = some 100 ∧ (50 : Date) < 100 ∧ p.release_reason_raw_text ≠ none
       ∧ prepare_incarceration_periods_for_calculations 50 true true false true
           (prepare_incarceration_periods_for_calculations 50 true true false true [p])
           = []) := by
  refine ⟨rfl, by decide, by decide, ?_⟩
  exact (pipeline_second_run_drops_cleared_future_release 50 true true false true _ 100
    (by decide) (by decide) (by decide) (by decide) rfl rfl (by decide) (by decide)).2

/-! Total-preorder facts for the admission-date sort key, and preservation of
admission-date sortedness by the two collapse passes. -/

theorem adm_le_total : ∀ x y : Option Date, adm_none_first_le x y ∨ adm_none_first_le y x := by
  intro x y
  cases x with
  | none => exact Or.inl trivial
  | some a =>
      cases y with
      | none => exact Or.inr trivial
      | some b => exact Int.le_total a b

theorem adm_le_trans : ∀ x y z : Option Date,
    adm_none_first_le x y → adm_none_first_le y z → adm_none_first_le x z := by
  intro x y z hxy hyz
  cases x with
  | none => exact trivial
  | some a =>
      cases y with
      | none => exact absurd hxy (fun h => h)
      | some b =>
          cases z with
          | none => exact absurd hyz (fun h => h)
          | some c => exact le_trans hxy hyz

theorem admission_le_total : ∀ a b : IP, admission_le a b ∨ admission_le b a :=
  fun a b => adm_le_total a.admission_date b.admission_date

theorem admission_le_trans : ∀ a b c : IP,
    admission_le a b → admission_le b c → admission_le a c :=
  fun a b c => adm_le_trans a.admission_date b.admission_date c.admission_date

theorem citp_go_mem_admission : ∀ (rest : List IP) (cur : IP) (z : IP),
    z ∈ citp_go cur rest → ∃ w ∈ cur :: rest, z.admission_date = w.admission_date := by
  intro rest
  induction rest with
  | nil =>
      intro cur z hz
      rw [citp_go] at hz
      have hzc := List.mem_singleton.mp hz
      exact ⟨cur, List.mem_cons_self cur [], by rw [hzc]⟩
  | cons q rest ih =>
      intro cur z hz
      rw [citp_go] at hz
      split_ifs at hz with hm
      · obtain ⟨w, hw, heq⟩ := ih (combine_incarceration_periods cur q false) z hz
        rcases List.mem_cons.mp hw with rfl | hw
        · exact ⟨cur, List.mem_cons_self cur (q :: rest),
            heq.trans (combine_admission_date cur q false)⟩
        · exact ⟨w, List.mem_cons_of_mem cur (List.mem_cons_of_mem q hw), heq⟩
      · rcases List.mem_cons.mp hz with rfl | hz
        · exact ⟨z, List.mem_cons_self z (q :: rest), rfl⟩
        · obtain ⟨w, hw, heq⟩ := ih q z hz
          exact ⟨w, List.mem_cons_of_mem cur hw, heq⟩

theorem citp_go_sorted : ∀ (rest : List IP) (cur : IP),
    List.Sorted admission_le (cur :: rest) →
    List.Sorted admission_le (citp_go cur rest) := by
  intro rest
  induction rest with
  | nil =>
      intro cur _
      rw [citp_go]
      exact List.sorted_singleton cur
  | cons q rest ih =>
      intro cur h
      rw [List.sorted_cons] at h
      obtain ⟨hcur, hqrest⟩ := h
      rw [citp_go]
      split_ifs with hm
      · apply ih
        rw [List.sorted_cons]
        refine ⟨?_, (List.sorted_cons.mp hqrest).2⟩
        intro z hz
        have hz' : admission_le cur z := hcur z (List.mem_cons_of_mem q hz)
        show adm_none_first_le
          (combine_incarceration_periods cur q false).admission_date z.admission_date
        rw [combine_admission_date]
        exact hz'
      · rw [List.sorted_cons]
        refine ⟨?_, ih q hqrest⟩
        intro z hz
        obtain ⟨w, hw, heq⟩ := citp_go_mem_admission rest q z hz
        have hcw : admission_le cur w := hcur w hw
        show adm_none_first_le cur.admission_date z.admission_date
        rw [heq]
        exact hcw

theorem collapse_transfers_sorted (l : List IP)
    (h : List.Sorted admission_le l) :
    List.Sorted admission_le (collapse_incarceration_period_transfers l) := by
  cases l with
  | nil => exact List.sorted_nil
  | cons p rest =>
      rw [collapse_transfers_cons]
      exact citp_go_sorted rest p h

theorem ctcr_loop_mem_admission : ∀ (l : List IP) (st : Option IP) (z : IP),
    z ∈ ctcr_loop st l → ∃ w ∈ st.toList ++ l, z.admission_date = w.admission_date := by
  intro l
  induction l with
  | nil =>
      intro st z hz
      cases st with
      | none => exact absurd hz (by rw [ctcr_loop]; exact List.not_mem_nil z)
      | some prev =>
          rw [ctcr_loop] at hz
          have hzc := List.mem_singleton.mp hz
          exact ⟨prev, by simp, by rw [hzc]⟩
  | cons ip rest ih =>
      intro st z hz
      cases st with
      | none =>
          rw [show ctcr_loop none (ip :: rest) = ctcr_loop (some ip) rest from rfl] at hz
          obtain ⟨w, hw, heq⟩ := ih (some ip) z hz
          exact ⟨w, by simpa using hw, heq⟩
      | some prev =>
          rw [show ctcr_loop (some prev) (ip :: rest)
              = if tc_rev_merge_cond prev ip then
                  combine_incarceration_periods prev ip true :: ctcr_loop none rest
                else prev :: ctcr_loop (some ip) rest from rfl] at hz
          split_ifs at hz with hm
          · rcases List.mem_cons.mp hz with hzc | hz
            · exact ⟨prev, by simp, by
                rw [hzc, combine_admission_date prev ip true]⟩
            · obtain ⟨w, hw, heq⟩ := ih none z hz
              refine ⟨w, ?_, heq⟩
              simp only [Option.toList, List.nil_append] at hw
              simp [List.mem_cons, hw]
          · rcases List.mem_cons.mp hz with hzc | hz
            · exact ⟨prev, by simp, by rw [hzc]⟩
            · obtain ⟨w, hw, heq⟩ := ih (some ip) z hz
              refine ⟨w, ?_, heq⟩
              simp only [Option.toList] at hw ⊢
              rcases List.mem_append.mp hw with hw | hw
              · simp [List.mem_singleton.mp hw]
              · simp [hw]

theorem ctcr_loop_sorted : ∀ (l : List IP) (st : Option IP),
    List.Sorted admission_le (st.toList ++ l) →
    List.Sorted admission_le (ctcr_loop st l) := by
  intro l
  induction l with
  | nil =>
      intro st h
      cases st with
      | none => rw [ctcr_loop]; exact List.sorted_nil
      | some prev => rw [ctcr_loop]; exact List.sorted_singleton prev
  | cons ip rest ih =>
      intro st h
      cases st with
      | none =>
          rw [show ctcr_loop none (ip :: rest) = ctcr_loop (some ip) rest from rfl]
          exact ih (some ip) (by simpa using h)
      | some prev =>
          simp only [Option.toList, List.singleton_append] at h
          rw [List.sorted_cons] at h
          obtain ⟨hprev, hiprest⟩ := h
          rw [show ctcr_loop (some prev) (ip :: rest)
              = if tc_rev_merge_cond prev ip then
                  combine_incarceration_periods prev ip true :: ctcr_loop none rest
                else prev :: ctcr_loop (some ip) rest from rfl]
          split_ifs with hm
          · rw [List.sorted_cons]
            refine ⟨?_, ih none (by simpa using (List.sorted_cons.mp hiprest).2)⟩
            intro z hz
            obtain ⟨w, hw, heq⟩ := ctcr_loop_mem_admission rest none z hz
            simp only [Option.toList, List.nil_append] at hw
            have hcw : admission_le prev w :=
              hprev w (List.mem_cons_of_mem ip hw)
            show adm_none_first_le
              (combine_incarceration_periods prev ip true).admission_date z.admission_date
            rw [combine_admission_date, heq]
            exact hcw
          · rw [List.sorted_cons]
            refine ⟨?_, ih (some ip) (by simpa using hiprest)⟩
            intro z hz
            obtain ⟨w, hw, heq⟩ := ctcr_loop_mem_admission rest (some ip) z hz
            simp only [Option.toList, List.singleton_append] at hw
            have hcw : admission_le prev w := hprev w hw
            show adm_none_first_le prev.admission_date z.admission_date
            rw [heq]
            exact hcw

theorem ctcr_sorted (l : List IP) (h : List.Sorted admission_le l) :
    List.Sorted admission_le (collapse_temporary_custody_and_revocation_periods l) :=
  ctcr_loop_sorted l none (by simpa using h)

theorem collapse_calcs_sorted (l : List IP) (ct tr : Bool)
    (h : List.Sorted admission_le l) :
    List.Sorted admission_le (_collapse_incarceration_periods_for_calculations l ct tr) := by
  unfold _collapse_incarceration_periods_for_calculations
  cases ct <;> cases tr <;>
    simp only [Bool.false_eq_true, if_false, if_true] <;>
    first
      | exact h
      | exact collapse_transfers_sorted l h
      | exact ctcr_sorted l h
      | exact ctcr_sorted _ (collapse_transfers_sorted l h)

/-- C5 (amended): every output of the preparation pipeline is sorted
ascending by admission date. -/
theorem pipeline_output_sorted_by_admission_date
    (today : Date) (ta na ct tr : Bool) (l : List IP) :
    List.Sorted admission_le
      (prepare_incarceration_periods_for_calculations today ta na ct tr l) := by
  rw [prepare_stage_composition]
  apply collapse_calcs_sorted
  haveI : IsTotal IP admission_le := ⟨admission_le_total⟩
  haveI : IsTrans IP admission_le := ⟨admission_le_trans⟩
  exact List.sorted_insertionSort admission_le _

/-! Consistency and antisymmetry of the chronological comparator on the valid
domain (the amended form of the strict-total-order claim). -/

theorem ext_id_flip (a b : IP) (hea : a.external_id ≠ none) (heb : b.external_id ≠ none)
    (hne : a.external_id ≠ b.external_id) :
    (_sort_by_external_id a b = -1 ∧ _sort_by_external_id b a = 1)
      ∨ (_sort_by_external_id a b = 1 ∧ _sort_by_external_id b a = -1) := by
  obtain ⟨x, hx⟩ := Option.ne_none_iff_exists'.mp hea
  obtain ⟨y, hy⟩ := Option.ne_none_iff_exists'.mp heb
  have hxy : x ≠ y := fun h => hne (by rw [hx, hy, h])
  unfold _sort_by_external_id
  rw [hx, hy]
  rcases lt_trichotomy x y with h | h | h
  · exact Or.inl ⟨by simp [h], by simp [lt_asymm h]⟩
  · exact absurd h hxy
  · exact Or.inr ⟨by simp [lt_asymm h], by simp [h]⟩

theorem flip_cases {c cr : Int}
    (h : (c = -1 ∧ cr = 1) ∨ (c = 1 ∧ cr = -1)) :
    c ≠ 0 ∧ cr ≠ 0 ∧ (0 < c ↔ cr < 0) := by
  rcases h with ⟨h1, h2⟩ | ⟨h1, h2⟩ <;> subst h1 <;> subst h2 <;> refine ⟨by decide, by decide, by decide⟩

theorem flip_sub {x y : Int} (h : x ≠ y) :
    x - y ≠ 0 ∧ y - x ≠ 0 ∧ (0 < x - y ↔ y - x < 0) := by
  refine ⟨by omega, by omega, by omega⟩

set_option maxHeartbeats 1000000 in
/-- C1 (amended): for valid periods with distinct external identities the
comparator never returns 0 and its sign flips when the arguments are swapped
(consistency and antisymmetry); transitivity, and with it the strict total
order and order-independence of sorting, fails (see the cycle). -/
theorem comparator_consistent_antisymmetric_on_valid_periods
    (a b : IP) (ha : ValidPeriod a) (hb : ValidPeriod b)
    (hne : a.external_id ≠ b.external_id) :
    _sort_function a b ≠ 0 ∧ _sort_function b a ≠ 0
      ∧ (0 < _sort_function a b ↔ _sort_function b a < 0) := by
  obtain ⟨hda, hea⟩ := ha
  obtain ⟨hdb, heb⟩ := hb
  have hext := ext_id_flip a b hea heb hne
  have hextr := ext_id_flip b a heb hea (fun h => hne h.symm)
  by_cases hadm : a.admission_date = b.admission_date
  · have e1 : _sort_function a b = _sort_equal_admission_date a b := by
      unfold _sort_function; rw [if_pos hadm]
    have e2 : _sort_function b a = _sort_equal_admission_date b a := by
      unfold _sort_function; rw [if_pos hadm.symm]
    rw [e1, e2]
    rcases hra : a.release_date with _ | ra <;> rcases hrb : b.release_date with _ | rb
    · -- neither has a release date: both admissions set, custody tie-break
      have haa : ∃ aa, a.admission_date = some aa := by
        rcases hda with h | h
        · exact Option.ne_none_iff_exists'.mp h
        · exact absurd hra h
      obtain ⟨aa, haa⟩ := haa
      have hab : b.admission_date = some aa := hadm ▸ haa
      have f1 : _sort_equal_admission_date a b = _sort_by_custody_status a b := by
        unfold _sort_equal_admission_date
        simp [hra, hrb, haa, hab]
      have f2 : _sort_equal_admission_date b a = _sort_by_custody_status b a := by
        unfold _sort_equal_admission_date
        simp [hra, hrb, haa, hab]
      rw [f1, f2]
      by_cases hsa : a.status = StateIncarcerationPeriodStatus.IN_CUSTODY <;>
        by_cases hsb : b.status = StateIncarcerationPeriodStatus.IN_CUSTODY
      · have g1 : _sort_by_custody_status a b = _sort_by_external_id a b := by
          simp [_sort_by_custody_status, hsa, hsb]
        have g2 : _sort_by_custody_status b a = _sort_by_external_id b a := by
          simp [_sort_by_custody_status, hsa, hsb]
        rw [g1, g2]; exact flip_cases hext
      · have g1 : _sort_by_custody_status a b = 1 := by
          simp [_sort_by_custody_status, hsa, hsb]
        have g2 : _sort_by_custody_status b a = -1 := by
          simp [_sort_by_custody_status, hsa, hsb]
        rw [g1, g2]; exact flip_cases (Or.inr ⟨rfl, rfl⟩)
      · have g1 : _sort_by_custody_status a b = -1 := by
          simp [_sort_by_custody_status, hsa, hsb]
        have g2 : _sort_by_custody_status b a = 1 := by
          simp [_sort_by_custody_status, hsa, hsb]
        rw [g1, g2]; exact flip_cases (Or.inl ⟨rfl, rfl⟩)
      · have g1 : _sort_by_custody_status a b = _sort_by_external_id a b := by
          simp [_sort_by_custody_status, hsa, hsb]
        have g2 : _sort_by_custody_status b a = _sort_by_external_id b a := by
          simp [_sort_by_custody_status, hsa, hsb]
        rw [g1, g2]; exact flip_cases hext
    · -- only b has a release date
      have haa : ∃ aa, a.admission_date = some aa := by
        rcases hda with h | h
        · exact Option.ne_none_iff_exists'.mp h
        · exact absurd hra h
      obtain ⟨aa, haa⟩ := haa
      have hab : b.admission_date = some aa := hadm ▸ haa
      have f1 : _sort_equal_admission_date a b
          = if rb - aa ≠ 0 then -1 else 1 := by
        unfold _sort_equal_admission_date
        simp [hra, hrb, haa, hab]
      have f2 : _sort_equal_admission_date b a
          = if rb - aa ≠ 0 then 1 else -1 := by
        unfold _sort_equal_admission_date
        simp [hra, hrb, haa, hab]
      rw [f1, f2]
      by_cases hz : rb - aa = 0
      · simp only [hz, ne_eq, not_true_eq_false, if_false, ite_false]
        exact flip_cases (Or.inr ⟨by simp [hz], by simp [hz]⟩)
      · exact flip_cases (Or.inl ⟨by simp [hz], by simp [hz]⟩)
    · -- only a has a release date
      have hab : ∃ ab2, b.admission_date = some ab2 := by
        rcases hdb with h | h
        · exact Option.ne_none_iff_exists'.mp h
        · exact absurd hrb h
      obtain ⟨ab2, hab⟩ := hab
      have haa : a.admission_date = some ab2 := hadm ▸ hab
      have f1 : _sort_equal_admission_date a b
          = if ra - ab2 ≠ 0 then 1 else -1 := by
        unfold _sort_equal_admission_date
        simp [hra, hrb, haa, hab]
      have f2 : _sort_equal_admission_date b a
          = if ra - ab2 ≠ 0 then -1 else 1 := by
        unfold _sort_equal_admission_date
        simp [hra, hrb, haa, hab]
      rw [f1, f2]
      by_cases hz : ra - ab2 = 0
      · exact flip_cases (Or.inl ⟨by simp [hz], by simp [hz]⟩)
      · exact flip_cases (Or.inr ⟨by simp [hz], by simp [hz]⟩)
    · -- both have release dates
      have f1 : _sort_equal_admission_date a b = _sort_by_nonnull_release_dates a b := by
        unfold _sort_equal_admission_date
        simp [hra, hrb, hadm]
      have f2 : _sort_equal_admission_date b a = _sort_by_nonnull_release_dates b a := by
        unfold _sort_equal_admission_date
        simp [hra, hrb, hadm]
      rw [f1, f2]
      by_cases hd : ra = rb
      · have g1 : _sort_by_nonnull_release_dates a b = _sort_by_external_id a b := by
          unfold _sort_by_nonnull_release_dates
          simp [hra, hrb, hd]
        have g2 : _sort_by_nonnull_release_dates b a = _sort_by_external_id b a := by
          unfold _sort_by_nonnull_release_dates
          simp [hra, hrb, hd]
        rw [g1, g2]; exact flip_cases hext
      · have g1 : _sort_by_nonnull_release_dates a b = ra - rb := by
          unfold _sort_by_nonnull_release_dates
          simp [hra, hrb, hd]
        have g2 : _sort_by_nonnull_release_dates b a = rb - ra := by
          unfold _sort_by_nonnull_release_dates
          simp [hra, hrb, Ne.symm hd]
        rw [g1, g2]; exact flip_sub hd
  · -- different admission dates
    rcases haa : a.admission_date with _ | aa <;> rcases hab : b.admission_date with _ | ab
    · exact absurd (haa.trans hab.symm) hadm
    · -- a has no admission date: anchored at its release date
      have hra : ∃ ra, a.release_date = some ra := by
        rcases hda with h | h
        · exact absurd haa h
        · exact Option.ne_none_iff_exists'.mp h
      obtain ⟨ra, hra⟩ := hra
      by_cases heq : ra = ab
      · rcases hrb : b.release_date with _ | rb
        · have f1 : _sort_function a b = 1 := by
            unfold _sort_function
            simp [hadm, haa, hab, hra, hrb, heq]
          have f2 : _sort_function b a = -1 := by
            unfold _sort_function
            simp [Ne.symm hadm, haa, hab, hra, hrb, heq]
          rw [f1, f2]; exact flip_cases (Or.inr ⟨rfl, rfl⟩)
        · have f1 : _sort_function a b = _sort_by_external_id a b := by
            unfold _sort_function
            simp [hadm, haa, hab, hra, hrb, heq]
          have f2 : _sort_function b a = _sort_by_external_id b a := by
            unfold _sort_function
            simp [Ne.symm hadm, haa, hab, hra, hrb, heq]
          rw [f1, f2]; exact flip_cases hext
      · have f1 : _sort_function a b = ra - ab := by
          unfold _sort_function
          simp [hadm, haa, hab, hra, heq]
        have f2 : _sort_function b a = ab - ra := by
          unfold _sort_function
          simp [Ne.symm hadm, haa, hab, hra, Ne.symm heq]
        rw [f1, f2]; exact flip_sub heq
    · -- b has no admission date: anchored at its release date
      have hrb : ∃ rb, b.release_date = some rb := by
        rcases hdb with h | h
        · exact absurd hab h
        · exact Option.ne_none_iff_exists'.mp h
      obtain ⟨rb, hrb⟩ := hrb
      by_cases heq : aa = rb
      · rcases hra : a.release_date with _ | ra
        · have f1 : _sort_function a b = -1 := by
            unfold _sort_function
            simp [hadm, haa, hab, hra, hrb, heq]
          have f2 : _sort_function b a = 1 := by
            unfold _sort_function
            simp [Ne.symm hadm, haa, hab, hra, hrb, heq]
          rw [f1, f2]; exact flip_cases (Or.inl ⟨rfl, rfl⟩)
        · have f1 : _sort_function a b = _sort_by_external_id a b := by
            unfold _sort_function
            simp [hadm, haa, hab, hra, hrb, heq]
          have f2 : _sort_function b a = _sort_by_external_id b a := by
            unfold _sort_function
            simp [Ne.symm hadm, haa, hab, hra, hrb, heq]
          rw [f1, f2]; exact flip_cases hext
      · have f1 : _sort_function a b = aa - rb := by
          unfold _sort_function
          simp [hadm, haa, hab, hrb, heq]
        have f2 : _sort_function b a = rb - aa := by
          unfold _sort_function
          simp [Ne.symm hadm, haa, hab, hrb, Ne.symm heq]
        rw [f1, f2]; exact flip_sub heq
    · -- both admissions set and distinct
      have hne2 : aa ≠ ab := by
        intro h
        exact hadm (by rw [haa, hab, h])
      have f1 : _sort_function a b = aa - ab := by
        unfold _sort_function
        simp [hadm, haa, hab, hne2]
      have f2 : _sort_function b a = ab - aa := by
        unfold _sort_function
        simp [Ne.symm hadm, haa, hab, Ne.symm hne2]
      rw [f1, f2]; exact flip_sub hne2

/-- Witness for comparator consistency at two concrete valid periods. -/
theorem comparator_consistent_antisymmetric_witness :
    (let wa : IP := { external_id := some ("A"), admission_date := some 0,
                      status := StateIncarcerationPeriodStatus.NOT_IN_CUSTODY };
     let wb : IP := { external_id := some ("B"), admission_date := some 1,
                      status := StateIncarcerationPeriodStatus.NOT_IN_CUSTODY };
     ValidPeriod wa ∧ ValidPeriod wb ∧ wa.external_id ≠ wb.external_id
       ∧ (_sort_function wa wb ≠ 0 ∧ _sort_function wb wa ≠ 0
           ∧ (0 < _sort_function wa wb ↔ _sort_function wb wa < 0))) := by
  refine ⟨by decide, by decide, by decide, ?_⟩
  exact comparator_consistent_antisymmetric_on_valid_periods _ _
    (by decide) (by decide) (by decide)
